import Mathlib

/-!
Verification of the worker protocol base module (`protocol.py`, class
`Protocol`). The Python 2 code is shallowly embedded: machine-level Python
values that the module manipulates become the inductive `Value`; fallible
Python code becomes `Except PyError`; the endless scheduler loop becomes a
fuel-indexed run function. Rationals stand in for Python numbers: every
numeric literal the module ever parses or divides is an exact decimal, so
the embedding is faithful on them.
-/

/-- Python runtime values the module manipulates: integers, floats (held
exactly as rationals), strings, and `None`. -/
inductive Value where
  | int : Int → Value
  | float : ℚ → Value
  | str : String → Value
  | none : Value
deriving DecidableEq, Repr

/-- Python `==` on the values above: numbers compare by numeric value across
int/float, strings by content, `None` equals only itself; a number never
equals a string. -/
def pyEq : Value → Value → Bool
  | Value.int a, Value.int b => a == b
  | Value.int a, Value.float b => (a : ℚ) == b
  | Value.float a, Value.int b => a == (b : ℚ)
  | Value.float a, Value.float b => a == b
  | Value.str a, Value.str b => a == b
  | Value.none, Value.none => true
  | _, _ => false

/-- The Python exceptions the embedded code can raise. `exception` carries
the message of a bare `Exception(...)`. -/
inductive PyError where
  | valueError : PyError
  | zeroDivisionError : PyError
  | ioError : PyError
  | typeError : PyError
  | exception : String → PyError
deriving DecidableEq, Repr

/-- Python `str.split(sep)` for a one-character separator, on the character
list of the string: `""` splits to `[""]`, separators at the ends produce
empty groups. -/
def splitOnChar (sep : Char) : List Char → List (List Char)
  | [] => [[]]
  | c :: cs =>
    match splitOnChar sep cs with
    | [] => [[]]
    | g :: gs => if c == sep then [] :: g :: gs else (c :: g) :: gs

/-- Numeric value of a list of decimal digit characters. -/
def digitsToNat (cs : List Char) : Nat :=
  cs.foldl (fun a c => a * 10 + (c.toNat - 48)) 0

/-- Nonempty and all decimal digits. -/
def isDigits (cs : List Char) : Bool :=
  !cs.isEmpty && cs.all Char.isDigit

/-- Strip an optional leading sign, returning the sign and the remainder. -/
def splitSign : List Char → Int × List Char
  | '-' :: cs => (-1, cs)
  | '+' :: cs => (1, cs)
  | cs => (1, cs)

/-- Strip leading and trailing whitespace (Python `int()`/`float()` accept
surrounding whitespace). -/
def stripWs (cs : List Char) : List Char :=
  ((cs.dropWhile Char.isWhitespace).reverse.dropWhile Char.isWhitespace).reverse

/-- Python 2 `int(s)` on a string: optional whitespace, optional sign, one or
more decimal digits; anything else raises ValueError (here `none`). -/
def parsePyInt (s : String) : Option Int :=
  let p := splitSign (stripWs s.toList)
  if isDigits p.2 then some (p.1 * (digitsToNat p.2 : Int)) else Option.none

/-- Mantissa of a Python float literal: `digits`, `digits.digits`,
`digits.` or `.digits`. -/
def parseMantissa (m : List Char) : Option ℚ :=
  match splitOnChar '.' m with
  | [ip] => if isDigits ip then some ((digitsToNat ip : ℚ)) else Option.none
  | [ip, fp] =>
    if (ip.all Char.isDigit && fp.all Char.isDigit) && !(ip.isEmpty && fp.isEmpty) then
      some ((digitsToNat ip : ℚ) + (digitsToNat fp : ℚ) / 10 ^ fp.length)
    else Option.none
  | _ => Option.none

/-- Exponent part of a Python float literal: optional sign, digits. -/
def parseExpPart (e : List Char) : Option Int :=
  let p := splitSign e
  if isDigits p.2 then some (p.1 * (digitsToNat p.2 : Int)) else Option.none

/-- Python `float(s)` on a string: optional whitespace and sign, a decimal
mantissa, and an optional `e`/`E` exponent. The value is exact (Python's
binary rounding never matters for the claims: the spec only ever speaks of
the parsed decimal values). `inf`/`nan` forms are outside the module's
configuration language and are not modelled. -/
def parsePyFloat (s : String) : Option ℚ :=
  let p := splitSign (stripWs s.toList)
  match splitOnChar 'e' (p.2.map (fun c => if c == 'E' then 'e' else c)) with
  | [m] => (parseMantissa m).map (fun q => (p.1 : ℚ) * q)
  | [m, ex] =>
    match parseMantissa m, parseExpPart ex with
    | some q, some n => some ((p.1 : ℚ) * q * (10 : ℚ) ^ n)
    | _, _ => Option.none
  | _ => Option.none

/-- The per-entry coercion of `get_port_params`: try `int(...)`, on
ValueError try `float(...)`, on ValueError keep the string. -/
def coerceValue (v : String) : Value :=
  match parsePyInt v with
  | some n => Value.int n
  | Option.none =>
    match parsePyFloat v with
    | some q => Value.float q
    | Option.none => Value.str v

/-- Python `k in d` for the association lists standing in for dicts. -/
def hasKey (d : List (String × α)) (k : String) : Bool :=
  d.any (fun p => p.1 == k)

/-- Python `d[k] = v`: overwrite the existing binding in place, else append. -/
def dictInsert (d : List (String × α)) (k : String) (v : α) : List (String × α) :=
  if hasKey d k then d.map (fun p => if p.1 = k then (p.1, v) else p)
  else d ++ [(k, v)]

/-- The dict comprehension `{k: v for k, v in pairs}`: later pairs overwrite
earlier ones. -/
def dictOfPairs (ps : List (String × String)) : List (String × String) :=
  ps.foldl (fun d p => dictInsert d p.1 p.2) []

/-- `param.split('=')` unpacked into the pair `k, v`: a segment without
exactly one `=` makes the unpacking in the dict comprehension raise
ValueError. -/
def splitParam (seg : List Char) : Except PyError (String × String) :=
  match splitOnChar '=' seg with
  | [k, v] => Except.ok (String.mk k, String.mk v)
  | _ => Except.error PyError.valueError

/-- The list comprehension `[param.split('=') for param in
port.params.split('|')]`, evaluated left to right, stopping at the first
malformed segment. -/
def collectParams : List (List Char) → Except PyError (List (String × String))
  | [] => Except.ok []
  | seg :: rest =>
    match splitParam seg with
    | Except.error e => Except.error e
    | Except.ok p =>
      match collectParams rest with
      | Except.error e => Except.error e
      | Except.ok ps => Except.ok (p :: ps)

/-- Key/value pairs of a raw parameter string, segment by segment. -/
def rawPairs (params : String) : Except PyError (List (String × String)) :=
  collectParams (splitOnChar '|' params.toList)

/-- The slice of a `db.Port` record that `get_port_params` reads: the raw
parameter string, the address, and `text`, the rendering Python produces for
`'%s' % port` (the `db.Port` object's string form; the db model is an
external collaborator). -/
structure Port where
  params : String
  address : Value
  text : String
deriving DecidableEq, Repr

/-- Embeds `Protocol.get_port_params`: split `port.params` on `|` into
`key=value` segments (ValueError on a malformed segment), build the dict
last-write-wins, coerce every value int-then-float-then-string, raise
`Exception` at the first required key that is missing, then set
`result['port'] = port.address`. -/
def get_port_params (port : Port) (required : List String) :
    Except PyError (List (String × Value)) :=
  match rawPairs port.params with
  | Except.error e => Except.error e
  | Except.ok ps =>
    match required.find?
        (fun r => !hasKey ((dictOfPairs ps).map (fun p => (p.1, coerceValue p.2))) r) with
    | some r =>
      Except.error (PyError.exception
        ("Missing required parameter \"" ++ r ++ "\" for port " ++ port.text ++ "."))
    | Option.none =>
      Except.ok (dictInsert ((dictOfPairs ps).map (fun p => (p.1, coerceValue p.2)))
        "port" port.address)

/-- The slice of a tag record the module reads: `address` (the ordering key,
not necessarily numeric), `poll_rate` in seconds (a Python number, exact
here), and `value`, the last recorded value consulted by `has_changed`. -/
structure Tag where
  address : Value
  poll_rate : ℚ
  value : Value
deriving DecidableEq, Repr

/-- Python `int()` on a number: truncation toward zero. (On the positive
ratios and addresses this module feeds it, this also coincides with Python 2
floor division of integer operands.) -/
def pyTrunc (q : ℚ) : Int :=
  if 0 ≤ q then ⌊q⌋ else ⌈q⌉

/-- Python `int(x)` on a tag address value. -/
def pyIntOfValue : Value → Except PyError Int
  | Value.int n => Except.ok n
  | Value.float q => Except.ok (pyTrunc q)
  | Value.str s =>
    match parsePyInt s with
    | some n => Except.ok n
    | Option.none => Except.error PyError.valueError
  | Value.none => Except.error PyError.typeError

/-- Whether `int(tag.address)` succeeds. -/
def addrNumeric (t : Tag) : Bool :=
  match pyIntOfValue t.address with
  | Except.ok _ => true
  | Except.error _ => false

/-- The numeric sort key `int(tag.address)` (0 is a dummy for addresses whose
conversion fails; the sorted branch is only taken when none fails). -/
def addrKey (t : Tag) : Int :=
  match pyIntOfValue t.address with
  | Except.ok n => n
  | Except.error _ => 0

/-- Comparator of the `sorted` call, as a boolean order on tags. -/
def addrLe (a b : Tag) : Bool :=
  decide (addrKey a ≤ addrKey b)

/-- The `sorted(tags, lambda x, y: cmp(int(x.address), int(y.address)))`
step with its bare `except: pass`: when every address converts, the tags are
stably sorted by the numeric key; otherwise a comparison raises inside
`sorted`, the assignment never happens, and the original order is kept. -/
def orderTags (tags : List Tag) : List Tag :=
  if tags.all addrNumeric then tags.mergeSort addrLe else tags

/-- `int(tag.poll_rate / self.loop_interval)`, the divisor of the due test. -/
def pollDivisor (interval : ℚ) (t : Tag) : Int :=
  pyTrunc (t.poll_rate / interval)

/-- The yield loop of `due_tags`: for each tag in order evaluate
`not self.loop_counter % int(tag.poll_rate / self.loop_interval)` — raising
ZeroDivisionError when the divisor is 0 — and yield the tags with remainder
0. (Python's `%` and Lean's `%` agree on whether the remainder is zero.) -/
def dueFilter (interval : ℚ) (counter : Int) : List Tag → Except PyError (List Tag)
  | [] => Except.ok []
  | t :: ts =>
    if pollDivisor interval t = 0 then Except.error PyError.zeroDivisionError
    else
      match dueFilter interval counter ts with
      | Except.error e => Except.error e
      | Except.ok rest =>
        Except.ok (if counter % pollDivisor interval t = 0 then t :: rest else rest)

/-- Embeds `Protocol.due_tags` with the generator collected into a list:
order the tags, then keep those due at `counter`. -/
def due_tags (interval : ℚ) (counter : Int) (tags : List Tag) :
    Except PyError (List Tag) :=
  dueFilter interval counter (orderTags tags)

/-- Embeds `Protocol.has_changed`: `return tag.value != value`. -/
def has_changed (tag : Tag) (value : Value) : Bool :=
  !(pyEq tag.value value)

/-- Python truthiness of the optional `core_pid` (`None` and `0` are falsy). -/
def pidTruthy : Option Int → Bool
  | Option.none => false
  | some n => n != 0

/-- Python `'%s' % pid` for the optional pid. -/
def pidText : Option Int → String
  | Option.none => "None"
  | some n => toString n

/-- Embeds `Protocol.is_core_running`:
`not self.core_pid or os.path.exists('/proc/%s' % self.core_pid)`, with the
host process table abstracted as the `pathExists` predicate. -/
def is_core_running (core_pid : Option Int) (pathExists : String → Bool) : Bool :=
  !pidTruthy core_pid || pathExists ("/proc/" ++ pidText core_pid)

/-- Python 2 `time.sleep(d)`: raises IOError when `d` is negative, otherwise
sleeps `d` seconds. -/
def pySleep (d : ℚ) : Except PyError Unit :=
  if d < 0 then Except.error PyError.ioError else Except.ok ()

/-- What one pass of the scheduler's sleep-and-advance tail produced. -/
structure CycleOutcome where
  logged : Bool
  sleptFor : ℚ
  counter : Int
deriving DecidableEq, Repr

/-- The tail of one `while True` iteration of `Protocol.start` after
`loop()` returned `slept`: `try: time.sleep(self.loop_interval - slept)
except IOError: logging.error(...)`, then `self.loop_counter += 1`. -/
def cycleTail (interval slept : ℚ) (counter : Int) : CycleOutcome :=
  match pySleep (interval - slept) with
  | Except.error _ => ⟨true, 0, counter + 1⟩
  | Except.ok _ => ⟨false, interval - slept, counter + 1⟩

/-- Observable trace of a (bounded) run of `Protocol.start`. -/
structure StartTrace where
  loopCalls : Nat
  coreChecks : Nat
  counter : Int
deriving DecidableEq, Repr

/-- The `while True` branch of `Protocol.start`, observed for `fuel`
iterations: each cycle polls `is_core_running` (`coreOk` gives the k-th
poll's result), stops on failure, otherwise calls `loop()` (returning
`sleptAt k`), sleeps, and increments the counter. -/
def startLoop (i : ℚ) (coreOk : Nat → Bool) (sleptAt : Nat → ℚ) :
    Nat → Int → Nat → Nat → StartTrace
  | 0, counter, calls, checks => ⟨calls, checks, counter⟩
  | fuel + 1, counter, calls, checks =>
    if coreOk checks then
      startLoop i coreOk sleptAt fuel
        (cycleTail i (sleptAt calls) counter).counter (calls + 1) (checks + 1)
    else ⟨calls, checks + 1, counter⟩

/-- Embeds `Protocol.start`: with `loop_interval = None` the scheduler calls
`loop()` exactly once and never polls the Core or touches the counter;
otherwise it runs the polling loop. -/
def startRun (interval : Option ℚ) (coreOk : Nat → Bool) (sleptAt : Nat → ℚ)
    (fuel : Nat) (counter : Int) : StartTrace :=
  match interval with
  | Option.none => ⟨1, 0, counter⟩
  | some i => startLoop i coreOk sleptAt fuel counter 0 0

/-- Fixture: the port of the round-trip example, `'%s' % port` rendered as
`Port 7`. -/
def portRound : Port :=
  ⟨"baud=9600|parity=N|timeout=2.5", Value.int 7, "Port 7"⟩

/-- Fixture: a port missing the `slave_id` parameter. -/
def portMissing : Port :=
  ⟨"baud=9600", Value.int 7, "Port 7"⟩

/-- Fixture: a port whose parameter string has a segment without `=`. -/
def portBad : Port :=
  ⟨"foo", Value.int 7, "Port 7"⟩

/-- Fixture: a tag polled every 5 seconds. -/
def tagFive : Tag :=
  ⟨Value.int 1, 5, Value.none⟩

/-- Fixture: a tag polled every second (faster than a 2-second loop). -/
def tagFast : Tag :=
  ⟨Value.int 1, 1, Value.none⟩

/-- Fixture: a 1-second tag at address 2. -/
def tagAddrTwo : Tag :=
  ⟨Value.int 2, 1, Value.none⟩

/-- Fixture: a 1-second tag at address 1. -/
def tagAddrOne : Tag :=
  ⟨Value.int 1, 1, Value.none⟩

theorem pyEq_refl (v : Value) : pyEq v v = true := by
  cases v <;> simp [pyEq]

theorem lookup_map_value (d : List (String × String)) (g : String → Value) (k : String) :
    (d.map (fun p => (p.1, g p.2))).lookup k = (d.lookup k).map g := by
  induction d with
  | nil => rfl
  | cons p t ih =>
    cases h : k == p.1 <;> simp [List.lookup, h, ih]

theorem hasKey_map (d : List (String × String)) (g : String → Value) (k : String) :
    hasKey (d.map (fun p => (p.1, g p.2))) k = hasKey d k := by
  induction d with
  | nil => rfl
  | cons p t ih =>
    simp only [hasKey, List.map_cons, List.any_cons] at ih ⊢
    rw [ih]

theorem lookup_map_overwrite (d : List (String × α)) (k : String) (v : α)
    (h : hasKey d k = true) :
    (d.map (fun p => if p.1 = k then (p.1, v) else p)).lookup k = some v := by
  induction d with
  | nil => simp [hasKey] at h
  | cons p t ih =>
    by_cases hpk : p.1 = k
    · simp only [List.map_cons]
      rw [if_pos hpk]
      have hk1 : (k == p.1) = true := by simp [hpk]
      simp [List.lookup, hk1]
    · have ht : hasKey t k = true := by
        simpa [hasKey, List.any_cons, hpk] using h
      have hk2 : (k == p.1) = false := by
        simp only [beq_eq_false_iff_ne, ne_eq]
        exact fun hq => hpk hq.symm
      simp only [List.map_cons]
      rw [if_neg hpk]
      simp [List.lookup, hk2, ih ht]

theorem lookup_map_overwrite_ne (d : List (String × α)) (k kq : String) (v : α)
    (h : kq ≠ k) :
    (d.map (fun p => if p.1 = k then (p.1, v) else p)).lookup kq = d.lookup kq := by
  induction d with
  | nil => rfl
  | cons p t ih =>
    by_cases hpk : p.1 = k
    · have hq2 : (kq == p.1) = false := by
        simp only [beq_eq_false_iff_ne, ne_eq]
        exact fun hq => h (hq.trans hpk)
      simp only [List.map_cons]
      rw [if_pos hpk]
      have hq3 : (kq == k) = false := by simpa using h
      rw [← hpk] at hq3
      simp [List.lookup, hq2, hq3, ih]
    · simp only [List.map_cons]
      rw [if_neg hpk]
      cases hq : kq == p.1 <;> simp [List.lookup, hq, ih]

theorem lookup_append_single (d : List (String × α)) (k : String) (v : α)
    (h : hasKey d k = false) :
    (d ++ [(k, v)]).lookup k = some v := by
  induction d with
  | nil => simp [List.lookup]
  | cons p t ih =>
    by_cases hpk : p.1 = k
    · simp [hasKey, List.any_cons, hpk] at h
    · have ht : hasKey t k = false := by
        simpa [hasKey, List.any_cons, hpk] using h
      have hk2 : (k == p.1) = false := by
        simp only [beq_eq_false_iff_ne, ne_eq]
        exact fun hq => hpk hq.symm
      simp [List.lookup, hk2, ih ht]

theorem lookup_append_single_ne (d : List (String × α)) (k kq : String) (v : α)
    (h : kq ≠ k) :
    (d ++ [(k, v)]).lookup kq = d.lookup kq := by
  induction d with
  | nil =>
    have hq2 : (kq == k) = false := by simpa using h
    simp [List.lookup, hq2]
  | cons p t ih =>
    cases hq : kq == p.1 <;> simp [List.lookup, hq, ih]

theorem lookup_dictInsert_self (d : List (String × α)) (k : String) (v : α) :
    (dictInsert d k v).lookup k = some v := by
  unfold dictInsert
  by_cases h : hasKey d k
  · rw [if_pos h]
    exact lookup_map_overwrite d k v h
  · rw [if_neg h]
    exact lookup_append_single d k v (by simpa using h)

theorem lookup_dictInsert_ne (d : List (String × α)) (k kq : String) (v : α)
    (h : kq ≠ k) :
    (dictInsert d k v).lookup kq = d.lookup kq := by
  unfold dictInsert
  by_cases hk : hasKey d k
  · rw [if_pos hk]
    exact lookup_map_overwrite_ne d k kq v h
  · rw [if_neg hk]
    exact lookup_append_single_ne d k kq v h

theorem lookup_foldl_insert (ps : List (String × String)) (acc : List (String × String))
    (k : String) :
    (ps.foldl (fun d p => dictInsert d p.1 p.2) acc).lookup k =
      ((ps.reverse.find? (fun p => p.1 == k)).map Prod.snd).or (acc.lookup k) := by
  induction ps generalizing acc with
  | nil => simp
  | cons p t ih =>
    rw [List.foldl_cons, ih, List.reverse_cons, List.find?_append]
    by_cases hpk : p.1 = k
    · have hp1 : List.find? (fun p => p.1 == k) [p] = some p := by
        simp [List.find?, hpk]
      rw [hp1]
      have hacc : (dictInsert acc p.1 p.2).lookup k = some p.2 := by
        rw [hpk] at *
        exact lookup_dictInsert_self acc k p.2
      rw [hacc]
      cases t.reverse.find? (fun p => p.1 == k) <;> simp [Option.or]
    · have hb : (p.1 == k) = false := by simpa using hpk
      have hp1 : List.find? (fun p => p.1 == k) [p] = Option.none := by
        simp [List.find?, hb]
      rw [hp1]
      have hacc : (dictInsert acc p.1 p.2).lookup k = acc.lookup k :=
        lookup_dictInsert_ne acc p.1 k p.2 (fun hq => hpk hq.symm)
      rw [hacc]
      cases t.reverse.find? (fun p => p.1 == k) <;> simp [Option.or]

theorem lookup_dictOfPairs (ps : List (String × String)) (k : String) :
    (dictOfPairs ps).lookup k =
      (ps.reverse.find? (fun p => p.1 == k)).map Prod.snd := by
  unfold dictOfPairs
  rw [lookup_foldl_insert]
  cases (ps.reverse.find? (fun p => p.1 == k)) <;> simp [Option.or, List.lookup]

theorem splitParam_error (seg : List Char) (e : PyError)
    (h : splitParam seg = Except.error e) : e = PyError.valueError := by
  unfold splitParam at h
  split at h
  · cases h
  · cases h
    rfl

theorem collectParams_error (segs : List (List Char))
    (h : ∃ seg ∈ segs, splitParam seg = Except.error PyError.valueError) :
    collectParams segs = Except.error PyError.valueError := by
  induction segs with
  | nil => simp at h
  | cons s t ih =>
    unfold collectParams
    rcases h with ⟨seg, hmem, hbad⟩
    rcases List.mem_cons.mp hmem with hs | hs
    · subst hs
      rw [hbad]
    · cases hsp : splitParam s
      · rw [splitParam_error s _ hsp]
      · rw [ih ⟨seg, hs, hbad⟩]

theorem mem_orderTags {t : Tag} {tags : List Tag} : t ∈ orderTags tags ↔ t ∈ tags := by
  unfold orderTags
  split
  · exact List.mem_mergeSort
  · exact Iff.rfl

theorem addrLe_trans (a b c : Tag) (h1 : addrLe a b = true) (h2 : addrLe b c = true) :
    addrLe a c = true := by
  simp only [addrLe, decide_eq_true_eq] at h1 h2 ⊢
  omega

theorem addrLe_total (a b : Tag) : (addrLe a b || addrLe b a) = true := by
  simp only [addrLe, Bool.or_eq_true, decide_eq_true_eq]
  omega

theorem pollDivisor_floor (interval : ℚ) (t : Tag)
    (h : 1 ≤ ⌊t.poll_rate / interval⌋) :
    pollDivisor interval t = ⌊t.poll_rate / interval⌋ := by
  unfold pollDivisor pyTrunc
  rw [if_pos]
  have h2 : ((1 : ℤ) : ℚ) ≤ t.poll_rate / interval := Int.le_floor.mp h
  push_cast at h2
  linarith

theorem dueFilter_eq_filter (interval : ℚ) (counter : Int) (l : List Tag)
    (h : ∀ t ∈ l, pollDivisor interval t ≠ 0) :
    dueFilter interval counter l =
      Except.ok (l.filter (fun t => decide (counter % pollDivisor interval t = 0))) := by
  induction l with
  | nil => rfl
  | cons t ts ih =>
    have ht := h t (List.mem_cons_self t ts)
    have hts := ih (fun u hu => h u (List.mem_cons_of_mem t hu))
    unfold dueFilter
    rw [if_neg ht, hts]
    by_cases hc : counter % pollDivisor interval t = 0
    · have hdvd : pollDivisor interval t ∣ counter := Int.dvd_of_emod_eq_zero hc
      simp [List.filter_cons, hc, hdvd]
    · have hdvd : ¬ pollDivisor interval t ∣ counter :=
        fun hd => hc (Int.emod_eq_zero_of_dvd hd)
      simp [List.filter_cons, hc, hdvd]

theorem orderTags_pairwise (tags : List Tag) (hall : ∀ t ∈ tags, addrNumeric t = true) :
    List.Pairwise (fun a b => addrKey a ≤ addrKey b) (orderTags tags) := by
  unfold orderTags
  rw [if_pos (List.all_eq_true.mpr hall)]
  have hs := List.sorted_mergeSort addrLe_trans addrLe_total tags
  exact hs.imp (fun hab => by simpa [addrLe] using hab)

/-- C6: `has_changed(tag, new_value)` is true iff `new_value` differs from
the recorded last value for the tag under Python value equality: an absent
(None) recorded value counts as different from any non-None value, an equal
recorded value reports no change, and an integer recorded value always
differs from a string (type sensitivity). -/
theorem hasChanged_change_detection :
    (∀ (t : Tag) (v : Value), t.value = Value.none → v ≠ Value.none →
      has_changed t v = true) ∧
    (∀ (t : Tag) (v : Value), t.value = v → has_changed t v = false) ∧
    (∀ (t : Tag) (n : Int) (s : String), t.value = Value.int n →
      has_changed t (Value.str s) = true) ∧
    (∀ (t : Tag) (v : Value), has_changed t v = false ↔ pyEq t.value v = true) := by
  refine ⟨?_, ?_, ?_, ?_⟩
  · intro t v h1 h2
    unfold has_changed
    rw [h1]
    cases v
    · rfl
    · rfl
    · rfl
    · exact absurd rfl h2
  · intro t v h
    unfold has_changed
    rw [h, pyEq_refl]
    rfl
  · intro t n s h
    unfold has_changed
    rw [h]
    rfl
  · intro t v
    unfold has_changed
    cases hpe : pyEq t.value v <;> simp

/-- C6 witness: on a tag with no recorded value, 10 reads as changed; with 10
recorded, 10 reads as unchanged while the string form does read as changed. -/
theorem hasChanged_change_detection_witness :
    has_changed ⟨Value.int 1, 5, Value.none⟩ (Value.int 10) = true ∧
    has_changed ⟨Value.int 1, 5, Value.int 10⟩ (Value.int 10) = false ∧
    has_changed ⟨Value.int 1, 5, Value.int 10⟩ (Value.str "10") = true :=
  ⟨hasChanged_change_detection.1 ⟨Value.int 1, 5, Value.none⟩ (Value.int 10) rfl
      (by intro h; cases h),
   hasChanged_change_detection.2.1 ⟨Value.int 1, 5, Value.int 10⟩ (Value.int 10) rfl,
   hasChanged_change_detection.2.2.1 ⟨Value.int 1, 5, Value.int 10⟩ 10 "10" rfl⟩

/-- C8: with no supervisor identity configured (`core_pid = None`),
`is_core_running` returns true whatever the host process table holds. -/
theorem no_supervisor_always_alive (pathExists : String → Bool) :
    is_core_running Option.none pathExists = true := rfl

/-- C10: with `loop_interval = None`, `start` calls `loop()` exactly once,
never polls `is_core_running`, and never touches the cycle counter, whatever
the Core does, whatever `loop()` returns, and however long we observe. -/
theorem interval_none_single_invocation (coreOk : Nat → Bool) (sleptAt : Nat → ℚ)
    (fuel : Nat) (counter : Int) :
    startRun Option.none coreOk sleptAt fuel counter =
      { loopCalls := 1, coreChecks := 0, counter := counter } := rfl

/-- C7 counterexample: a cycle whose sample step consumed exactly the
interval (elapsed = interval = 1, remainder zero) logs nothing — `time.sleep(0)`
succeeds — so the claim that every cycle with elapsed ≥ interval is logged is
false at this input. -/
theorem overrun_zero_remainder_counterexample :
    (1 : ℚ) ≤ 1 ∧ (cycleTail 1 1 5).logged = false := by
  constructor
  · exact le_refl 1
  · unfold cycleTail pySleep
    rw [if_neg (by norm_num : ¬ ((1 : ℚ) - 1 < 0))]

/-- C7 as amended: whenever the sample step's elapsed time is at least the
interval, the scheduler neither raises nor sleeps (the IOError of the
negative sleep is caught), and the counter is still incremented; the failed
sleep is logged exactly when the elapsed time strictly exceeds the interval
(a zero remainder sleeps zero without logging). -/
theorem overrun_handling_amended (i s : ℚ) (c : Int) (h : i ≤ s) :
    (cycleTail i s c).counter = c + 1 ∧ (cycleTail i s c).sleptFor = 0 ∧
    ((cycleTail i s c).logged = true ↔ i < s) := by
  unfold cycleTail pySleep
  by_cases hlt : (i - s : ℚ) < 0
  · rw [if_pos hlt]
    refine ⟨rfl, rfl, ?_⟩
    have : i < s := by linarith
    simpa using this
  · rw [if_neg hlt]
    have he : i = s := le_antisymm h (by linarith)
    refine ⟨rfl, ?_, ?_⟩
    · show i - s = 0
      rw [he]
      ring
    · have : ¬ i < s := by rw [he]; exact lt_irrefl s
      simpa using this

/-- C7 witness: a cycle that overran a 1-second interval by 1 second. -/
theorem overrun_handling_witness :
    (1 : ℚ) ≤ 2 ∧ ((cycleTail 1 2 7).counter = 7 + 1 ∧
      (cycleTail 1 2 7).sleptFor = 0 ∧
      ((cycleTail 1 2 7).logged = true ↔ (1 : ℚ) < 2)) :=
  ⟨by norm_num, overrun_handling_amended 1 2 7 (by norm_num)⟩

/-- C1: when every tag's divisor `floor(poll_rate / interval)` is at least 1,
`due_tags` succeeds and yields a tag exactly at the cycle counters divisible
by that divisor — for `interval = 1`, `poll_rate = 5` this is cycles 5, 10,
15, … and no others. (Python's `int()` on the positive ratio is exactly this
floor.) -/
theorem dueTags_periodicity (interval : ℚ) (counter : Int) (tags : List Tag)
    (h : ∀ t ∈ tags, 1 ≤ ⌊t.poll_rate / interval⌋) :
    ∃ l, due_tags interval counter tags = Except.ok l ∧
      ∀ t : Tag, t ∈ l ↔ (t ∈ tags ∧ counter % ⌊t.poll_rate / interval⌋ = 0) := by
  have h2 : ∀ t ∈ orderTags tags, pollDivisor interval t ≠ 0 := by
    intro t ht
    have h3 := h t (mem_orderTags.mp ht)
    rw [pollDivisor_floor interval t h3]
    omega
  refine ⟨_, dueFilter_eq_filter interval counter (orderTags tags) h2, ?_⟩
  intro t
  rw [List.mem_filter, mem_orderTags]
  constructor
  · rintro ⟨ht, hc⟩
    rw [pollDivisor_floor interval t (h t ht)] at hc
    exact ⟨ht, by simpa using hc⟩
  · rintro ⟨ht, hc⟩
    refine ⟨ht, ?_⟩
    rw [pollDivisor_floor interval t (h t ht)]
    simpa using hc

/-- C1 witness: a 5-second tag under a 1-second interval is due at cycle 5. -/
theorem dueTags_periodicity_witness :
    (∀ t ∈ [tagFive], 1 ≤ ⌊t.poll_rate / (1 : ℚ)⌋) ∧
    (∃ l, due_tags 1 5 [tagFive] = Except.ok l ∧
      ∀ t : Tag, t ∈ l ↔ (t ∈ [tagFive] ∧ (5 : Int) % ⌊t.poll_rate / (1 : ℚ)⌋ = 0)) := by
  have hh : ∀ t ∈ [tagFive], 1 ≤ ⌊t.poll_rate / (1 : ℚ)⌋ := by
    intro t ht
    rw [List.mem_singleton] at ht
    subst ht
    norm_num [tagFive]
  exact ⟨hh, dueTags_periodicity 1 5 [tagFive] hh⟩

/-- C2: the code, not the claim, is at fault — nothing rejects a poll rate
below the interval at setup, and at runtime the due test divides by the
truncated ratio 0: a 1-second tag under a 2-second interval makes `due_tags`
raise ZeroDivisionError on the very first cycle. -/
theorem subinterval_pollrate_zero_division :
    due_tags 2 1 [tagFast] = Except.error PyError.zeroDivisionError := by
  have h1 : orderTags [tagFast] = [tagFast] := by
    simp [orderTags, addrNumeric, pyIntOfValue, tagFast, List.mergeSort]
  have h2 : pollDivisor 2 tagFast = 0 := by
    show pyTrunc ((1 : ℚ) / 2) = 0
    unfold pyTrunc
    rw [if_pos (by norm_num)]
    norm_num
  show dueFilter 2 1 (orderTags [tagFast]) = Except.error PyError.zeroDivisionError
  rw [h1]
  unfold dueFilter
  rw [if_pos h2]

/-- C9: whenever no tag's divisor is zero, `due_tags` does not raise; if
every address converts with `int()`, the yielded tags come in ascending
numeric address order, and otherwise the `sorted` call fails, the bare
`except` keeps the input order, and the yield is a subsequence of the input
collection (the stable fallback). -/
theorem dueTags_ordering (interval : ℚ) (counter : Int) (tags : List Tag)
    (hd : ∀ t ∈ tags, pollDivisor interval t ≠ 0) :
    ((∀ t ∈ tags, addrNumeric t = true) →
      ∃ l, due_tags interval counter tags = Except.ok l ∧
        List.Pairwise (fun a b => addrKey a ≤ addrKey b) l) ∧
    ((¬ ∀ t ∈ tags, addrNumeric t = true) →
      orderTags tags = tags ∧
      ∃ l, due_tags interval counter tags = Except.ok l ∧ l.Sublist tags) := by
  have h2 : ∀ t ∈ orderTags tags, pollDivisor interval t ≠ 0 :=
    fun t ht => hd t (mem_orderTags.mp ht)
  constructor
  · intro hall
    refine ⟨_, dueFilter_eq_filter interval counter (orderTags tags) h2, ?_⟩
    exact (orderTags_pairwise tags hall).sublist (List.filter_sublist _)
  · intro hnall
    have hfall : orderTags tags = tags := by
      unfold orderTags
      rw [if_neg]
      simpa [List.all_eq_true] using hnall
    refine ⟨hfall,
      ⟨tags.filter (fun t => decide (counter % pollDivisor interval t = 0)), ?_,
        List.filter_sublist _⟩⟩
    show dueFilter interval counter (orderTags tags) = _
    rw [hfall]
    exact dueFilter_eq_filter interval counter tags hd

/-- C9 witness: two numerically addressed 1-second tags, given out of order,
are yielded in ascending address order at cycle 1. -/
theorem dueTags_ordering_witness :
    (∀ t ∈ [tagAddrTwo, tagAddrOne], pollDivisor 1 t ≠ 0) ∧
    ((∀ t ∈ [tagAddrTwo, tagAddrOne], addrNumeric t = true) →
      ∃ l, due_tags 1 1 [tagAddrTwo, tagAddrOne] = Except.ok l ∧
        List.Pairwise (fun a b => addrKey a ≤ addrKey b) l) := by
  have hd : ∀ t ∈ [tagAddrTwo, tagAddrOne], pollDivisor 1 t ≠ 0 := by
    intro t ht
    rcases List.mem_cons.mp ht with hs | hs
    · subst hs
      show pyTrunc ((1 : ℚ) / 1) ≠ 0
      unfold pyTrunc
      rw [if_pos (by norm_num)]
      norm_num
    · rw [List.mem_singleton] at hs
      subst hs
      show pyTrunc ((1 : ℚ) / 1) ≠ 0
      unfold pyTrunc
      rw [if_pos (by norm_num)]
      norm_num
  exact ⟨hd, (dueTags_ordering 1 1 [tagAddrTwo, tagAddrOne] hd).1⟩

/-- C3: when the segments parse and some required key is absent from the
coerced dict, `get_port_params` raises an `Exception` whose message names the
first missing key and the port being configured; no dictionary — and hence no
`port` binding — is ever returned. -/
theorem missing_required_param_error (port : Port) (required : List String)
    (ps : List (String × String)) (r : String)
    (hps : rawPairs port.params = Except.ok ps)
    (hr : required.find? (fun k => !hasKey (dictOfPairs ps) k) = some r) :
    get_port_params port required = Except.error (PyError.exception
      ("Missing required parameter \"" ++ r ++ "\" for port " ++ port.text ++ ".")) ∧
    r ∈ required ∧ hasKey (dictOfPairs ps) r = false := by
  have hpred : (fun k => !hasKey ((dictOfPairs ps).map (fun p => (p.1, coerceValue p.2))) k)
      = (fun k => !hasKey (dictOfPairs ps) k) := by
    funext k
    rw [hasKey_map]
  have hfind := List.find?_some hr
  refine ⟨?_, List.mem_of_find?_eq_some hr, by simpa using hfind⟩
  unfold get_port_params
  simp only [hps, hpred, hr]

/-- C3 witness: `"baud=9600"` with required keys `baud` and `slave_id` fails
with an error that names `slave_id` and the port. -/
theorem missing_required_param_error_witness :
    get_port_params portMissing ["baud", "slave_id"] = Except.error (PyError.exception
      ("Missing required parameter \"" ++ "slave_id" ++ "\" for port " ++
        portMissing.text ++ ".")) ∧
    "slave_id" ∈ ["baud", "slave_id"] :=
  ⟨(missing_required_param_error portMissing ["baud", "slave_id"] [("baud", "9600")]
      "slave_id" rfl rfl).1,
   (missing_required_param_error portMissing ["baud", "slave_id"] [("baud", "9600")]
      "slave_id" rfl rfl).2.1⟩

/-- C4: on success, `get_port_params` maps `port` to the port's address and
every other key to the int-then-float-then-string coercion of the raw value
that last-write-wins parsing produced for it; the coercion tries the integer
parse first, the floating parse second, and keeps the string otherwise. -/
theorem port_params_coercion (port : Port) (required : List String)
    (d : List (String × Value)) (h : get_port_params port required = Except.ok d) :
    d.lookup "port" = some port.address ∧
    (∀ k v, k ≠ "port" →
      (∃ ps, rawPairs port.params = Except.ok ps ∧ (dictOfPairs ps).lookup k = some v) →
      d.lookup k = some (coerceValue v)) ∧
    (∀ v n, parsePyInt v = some n → coerceValue v = Value.int n) ∧
    (∀ v q, parsePyInt v = Option.none → parsePyFloat v = some q →
      coerceValue v = Value.float q) ∧
    (∀ v, parsePyInt v = Option.none → parsePyFloat v = Option.none →
      coerceValue v = Value.str v) := by
  unfold get_port_params at h
  split at h
  · exact absurd h (by simp)
  next ps hps =>
    split at h
    · exact absurd h (by simp)
    next hfind =>
      injection h with h2
      subst h2
      refine ⟨lookup_dictInsert_self _ _ _, ?_, ?_, ?_, ?_⟩
      · rintro k v hk ⟨ps2, hps2, hlk⟩
        rw [hps] at hps2
        injection hps2 with hps3
        subst hps3
        rw [lookup_dictInsert_ne _ _ _ _ hk, lookup_map_value, hlk]
        rfl
      · intro v n hv
        simp only [coerceValue, hv]
      · intro v q h1 h2
        simp only [coerceValue, h1, h2]
      · intro v h1 h2
        simp only [coerceValue, h1, h2]

/-- C4 witness: `"baud=9600|parity=N|timeout=2.5"` with required `baud`
round-trips to `baud` as integer 9600, `parity` as the string `N`, `timeout`
as the float 2.5, plus `port` bound to the port's address. -/
theorem port_params_coercion_witness :
    get_port_params portRound ["baud"] = Except.ok [("baud", Value.int 9600),
      ("parity", Value.str "N"), ("timeout", Value.float (5 / 2)),
      ("port", Value.int 7)] ∧
    ([("baud", Value.int 9600), ("parity", Value.str "N"),
      ("timeout", Value.float (5 / 2)), ("port", Value.int 7)] :
        List (String × Value)).lookup "port" = some portRound.address := by
  have hv3 : coerceValue "2.5" = Value.float (5 / 2) := by
    have e0 : parsePyInt "2.5" = Option.none := rfl
    have e1 : parsePyFloat "2.5" =
        some (((1 : Int) : ℚ) * (((2 : Nat) : ℚ) + ((5 : Nat) : ℚ) / 10 ^ 1)) := rfl
    simp only [coerceValue, e0, e1]
    norm_num
  have h0 : get_port_params portRound ["baud"] = Except.ok [("baud", Value.int 9600),
      ("parity", Value.str "N"), ("timeout", coerceValue "2.5"),
      ("port", Value.int 7)] := rfl
  rw [hv3] at h0
  exact ⟨h0, (port_params_coercion portRound ["baud"] _ h0).1⟩

/-- C5 counterexample: the claim says malformed segments never make the
parser raise, but the parameter string `"foo"` — one segment with no `=` —
raises a ValueError from the unpacking inside the dict comprehension. -/
theorem malformed_segment_raises_counterexample :
    get_port_params portBad [] = Except.error PyError.valueError := rfl

/-- C5 as amended: duplicate keys are indeed accepted silently,
last-write-wins, with no further validation — but a segment without exactly
one `=` is not tolerated: it raises a ValueError while the dict is built. -/
theorem param_permissive_policy_amended :
    (∀ params : String,
      (∃ seg ∈ splitOnChar '|' params.toList,
        splitParam seg = Except.error PyError.valueError) →
      rawPairs params = Except.error PyError.valueError) ∧
    (∀ (ps : List (String × String)) (k : String),
      (dictOfPairs ps).lookup k = (ps.reverse.find? (fun p => p.1 == k)).map Prod.snd) := by
  constructor
  · intro params hseg
    unfold rawPairs
    exact collectParams_error _ hseg
  · intro ps k
    exact lookup_dictOfPairs ps k

/-- C5 witness: `"foo"` raises at the splitting stage, and the duplicate key
`a` in `a=1|a=2` resolves to the last written value `2`. -/
theorem param_permissive_policy_witness :
    rawPairs "foo" = Except.error PyError.valueError ∧
    (dictOfPairs [("a", "1"), ("a", "2")]).lookup "a" = some "2" := by
  constructor
  · exact param_permissive_policy_amended.1 "foo" ⟨"foo".toList, by decide, rfl⟩
  · exact (param_permissive_policy_amended.2 [("a", "1"), ("a", "2")] "a").trans rfl
